import Mathlib

/-!
Verification development for `FITS_tools/match_images.py`.

The module under study is a thin orchestration layer over external
libraries (pyfits/astropy, montage, hcongrid, numpy).  We embed the two
functions of the module, `project_to_header` and `match_fits`, shallowly:

* External collaborators (file access `pyfits.getdata` / `pyfits.getheader`,
  the header-flattening helper `flatten_header` — classified by the module's
  own documentation as an external collaborator outside this core —, the
  montage reprojection backend, the `hcongrid` regridder, and numpy's
  `.std()`) are fields of an `Env` record: arbitrary total or fallible
  functions the theorems quantify over.
* Images are a shape (list of axis lengths) plus flattened pixel data.
  Pixel values are `FVal`: either NaN or an exact rational.  IEEE NaN
  propagation and NaN comparison semantics are modelled explicitly
  (`NaN == NaN` is false, `NaN > x` is false, `NaN * x = NaN`); rounding of
  finite arithmetic is idealised as exact.
* Side effects that the specification talks about (temporary-file
  creation/closing, backend invocations) are recorded in an event trace
  returned alongside the result.
* Python exceptions are modelled with `Except`: backend-internal failures
  propagate as `PyErr.backendError`; the single explicit `raise ValueError`
  of the module is `PyErr.valueError`.  When neither backend branch of
  `project_to_header` is taken, the source reaches `return image` with
  `image` never assigned — no explicit raise occurs on that path; following
  the undefined/None-like framing we model that outcome as `none`, and the
  caller's subsequent attribute access on it as `PyErr.attributeError`.
-/

/-- A FITS file is identified by its path. -/
abbrev FitsFile := String

/-- A FITS header: a list of keyword cards.  Its internal structure is
irrelevant to the module (headers are only passed through to backends),
so any concrete representation with decidable equality serves. -/
abbrev Header := List (String × Int)

/-- Extra keyword options (`**kwargs`), forwarded only to `hcongrid`. -/
abbrev KwArgs := List (String × Int)

/-- A floating-point value: NaN, or a finite value idealised as a rational. -/
inductive FVal where
  | nan : FVal
  | val (q : ℚ) : FVal
deriving DecidableEq

/-- IEEE multiplication: NaN is absorbing (in particular `NaN * 0 = NaN`,
which is what numpy computes when a NaN pixel is multiplied by a `False`
mask entry). -/
def FVal.mul : FVal → FVal → FVal
  | FVal.val a, FVal.val b => FVal.val (a * b)
  | _, _ => FVal.nan

/-- IEEE addition: NaN is absorbing. -/
def FVal.add : FVal → FVal → FVal
  | FVal.val a, FVal.val b => FVal.val (a + b)
  | _, _ => FVal.nan

/-- IEEE strict greater-than: any comparison involving NaN is false. -/
def FVal.gt : FVal → FVal → Bool
  | FVal.val a, FVal.val b => decide (b < a)
  | _, _ => false

/-- IEEE equality test (`==`): `NaN == x` is false, even for `x = NaN`.
The module uses `x == x` as its non-NaN test. -/
def FVal.feq : FVal → FVal → Bool
  | FVal.val a, FVal.val b => decide (a = b)
  | _, _ => false

/-- Python truthiness of a numeric value: `0` and `0.0` (and `False`) are
falsy; every other float, including NaN, is truthy. -/
def FVal.truthy : FVal → Bool
  | FVal.nan => true
  | FVal.val q => decide (q ≠ 0)

/-- Numpy's cast of a boolean to a number when multiplying a float array
by a boolean mask: `True ↦ 1.0`, `False ↦ 0.0`. -/
def boolToF (b : Bool) : FVal :=
  if b then FVal.val 1 else FVal.val 0

/-- An n-dimensional numpy array: a shape and the flattened pixel data. -/
structure NDImage where
  shape : List Nat
  data : List FVal
deriving DecidableEq

/-- Numpy `squeeze`: drop every axis of length 1; the flattened data is
unchanged. -/
def NDImage.squeeze (im : NDImage) : NDImage :=
  ⟨im.shape.filter (fun n => n ≠ 1), im.data⟩

/-- Elementwise map over an array (shape preserved). -/
def NDImage.emap (f : FVal → FVal) (im : NDImage) : NDImage :=
  ⟨im.shape, im.data.map f⟩

/-- Numpy elementwise product of two flattened arrays. -/
def npMulList (xs ys : List FVal) : List FVal :=
  (xs.zip ys).map (fun p => p.1.mul p.2)

/-- Numpy boolean-mask selection `xs[mask]`. -/
def npSelect (mask : List Bool) (xs : List FVal) : List FVal :=
  ((mask.zip xs).filter (fun p => p.1)).map (fun p => p.2)

/-- The module's validity mask `OK = (x == x) * (y == y)`: true exactly at
positions where both entries are non-NaN. -/
def okMask (xs ys : List FVal) : List Bool :=
  (xs.zip ys).map (fun p => p.1.feq p.1 && p.2.feq p.2)

/-- Numpy `.sum()` of a flattened array; the empty sum is `0.0`. -/
def npSum (xs : List FVal) : FVal :=
  xs.foldl FVal.add (FVal.val 0)

/-- Errors a call can surface.  `backendError` wraps a failure raised
inside an external library and propagated unmodified; `valueError` is the
module's one explicit raise; `attributeError` models using the undefined
result of a fallen-through projection (e.g. taking `.shape` of it). -/
inductive PyErr where
  | valueError (msg : String) : PyErr
  | backendError (msg : String) : PyErr
  | attributeError : PyErr
deriving DecidableEq

/-- Observable events of a call, recorded in order: temporary-file
lifecycle (ids: 0 = serialized-header file, 1 = montage output file),
backend invocations with the arguments they receive, and entry into
`project_to_header` itself. -/
inductive Event where
  | projectCall (f : FitsFile) (h : Header) : Event
  | openTemp (id : Nat) : Event
  | writeHeader (id : Nat) (h : Header) : Event
  | callReproject (f : FitsFile) (h : Header) (exact_size silent : Bool) : Event
  | closeTemp (id : Nat) : Event
  | callHcongrid (img : NDImage) (srcHdr tgtHdr : Header) (kw : KwArgs) : Event
deriving DecidableEq

/-- The external world: availability flags of the two backends and the
behaviour of every external collaborator the module calls.  All theorems
are stated for an arbitrary `Env`. -/
structure Env where
  montageOK : Bool
  hcongridOK : Bool
  getdata : FitsFile → NDImage
  getheader : FitsFile → Header
  flatten_header : Header → Header
  reproject : FitsFile → Header → Bool → Bool → Except String NDImage
  hcongrid : NDImage → Header → Header → KwArgs → Except String NDImage
  std : NDImage → FVal

/-- Embedding of `project_to_header(fitsfile, header, use_montage, quiet,
**kwargs)`.  The montage branch (`montageOK and use_montage`) opens the
serialized-header temp file (id 0), writes the header into it, opens the
output temp file (id 1), calls `montage.wrappers.reproject` with
`exact_size=True` and `silent_cleanup=quiet` — note: without the kwargs —
reads the result back, then closes the output file and the header file.
The source has no try/finally: if `reproject` raises, the two `close`
calls are skipped and the exception propagates.  The `env.reproject`
field models the reproject-then-`getdata(outfile.name)` round trip as one
fallible step.  The fallback branch calls `hcongrid` on the squeezed
source data, the flattened source header, the target header, and the
kwargs.  If neither branch is taken the function falls through with no
result (`none`); no explicit failure is raised there. -/
def project_to_header (env : Env) (fitsfile : FitsFile) (header : Header)
    (use_montage : Bool) (quiet : Bool) (kwargs : KwArgs) :
    Except PyErr (Option NDImage) × List Event :=
  if env.montageOK && use_montage then
    match env.reproject fitsfile header true quiet with
    | Except.error e =>
        (Except.error (PyErr.backendError e),
         [Event.projectCall fitsfile header, Event.openTemp 0,
          Event.writeHeader 0 header, Event.openTemp 1,
          Event.callReproject fitsfile header true quiet])
    | Except.ok image =>
        (Except.ok (some image),
         [Event.projectCall fitsfile header, Event.openTemp 0,
          Event.writeHeader 0 header, Event.openTemp 1,
          Event.callReproject fitsfile header true quiet,
          Event.closeTemp 1, Event.closeTemp 0])
  else if env.hcongridOK then
    match env.hcongrid ((env.getdata fitsfile).squeeze)
        (env.flatten_header (env.getheader fitsfile)) header kwargs with
    | Except.error e =>
        (Except.error (PyErr.backendError e),
         [Event.projectCall fitsfile header,
          Event.callHcongrid ((env.getdata fitsfile).squeeze)
            (env.flatten_header (env.getheader fitsfile)) header kwargs])
    | Except.ok image =>
        (Except.ok (some image),
         [Event.projectCall fitsfile header,
          Event.callHcongrid ((env.getdata fitsfile).squeeze)
            (env.flatten_header (env.getheader fitsfile)) header kwargs])
  else
    (Except.ok none, [Event.projectCall fitsfile header])

/-- First phase of `match_fits` (its lines 90–94): resolve the working
header and image 1.  With no caller-supplied header, the working header is
`flatten_header(getheader(fitsfile1))` and image 1 is the raw squeezed
data of file 1; otherwise image 1 is file 1 reprojected onto the supplied
header (kwargs forwarded; `use_montage` and `quiet` keep their defaults
`True`). -/
def resolve1 (env : Env) (fitsfile1 : FitsFile) (header : Option Header)
    (kwargs : KwArgs) : Except PyErr (Header × Option NDImage) × List Event :=
  match header with
  | none =>
      (Except.ok (env.flatten_header (env.getheader fitsfile1),
        some ((env.getdata fitsfile1).squeeze)), [])
  | some hdr =>
      match project_to_header env fitsfile1 hdr true true kwargs with
      | (Except.ok image1, tr) => (Except.ok (hdr, image1), tr)
      | (Except.error e, tr) => (Except.error e, tr)

/-- The sigma-cut of one image: `image * (image > image.std()*sigma_cut)`.
Pixels strictly above `std*sigma_cut` survive; the rest are multiplied by
`0.0` (which leaves NaN pixels NaN). -/
def cutImage (env : Env) (im : NDImage) (sigma_cut : FVal) : NDImage :=
  im.emap (fun v => v.mul (boolToF (v.gt ((env.std im).mul sigma_cut))))

/-- The degenerate-cut test quantity
`(corr_image1[OK] * corr_image2[OK]).sum()` where
`OK = (corr_image1==corr_image1)*(corr_image2==corr_image2)`. -/
def overlapSum (c1 c2 : NDImage) : FVal :=
  npSum (npMulList (npSelect (okMask c1.data c2.data) c1.data)
    (npSelect (okMask c1.data c2.data) c2.data))

/-- Return value of `match_fits`: a pair, or — when `return_header` was
passed — a triple carrying the working header. -/
inductive MatchReturn where
  | pair (i1 i2 : NDImage) : MatchReturn
  | triple (i1 i2 : NDImage) (h : Header) : MatchReturn
deriving DecidableEq

/-- The final tuple construction of `match_fits`. -/
def mkReturns (i1 i2 : NDImage) (h : Header) (return_header : Bool) :
    MatchReturn :=
  if return_header then MatchReturn.triple i1 i2 h else MatchReturn.pair i1 i2

/-- Shape agreement of the two images of a return value. -/
def MatchReturn.shapeEq : MatchReturn → Bool
  | MatchReturn.pair i1 i2 => decide (i1.shape = i2.shape)
  | MatchReturn.triple i1 i2 _ => decide (i1.shape = i2.shape)

/-- Embedding of `match_fits(fitsfile1, fitsfile2, header, sigma_cut,
return_header, **kwargs)`: resolve the working header and image 1
(`resolve1`), always project file 2 onto the working header, raise
`ValueError` when the shapes disagree, then optionally apply the
sigma-cut with its degenerate-cut fallback, and build the return tuple.
A projection that fell through with no backend yields an undefined value
whose `.shape` access fails (`attributeError`). -/
def match_fits (env : Env) (fitsfile1 fitsfile2 : FitsFile)
    (header : Option Header) (sigma_cut : FVal) (return_header : Bool)
    (kwargs : KwArgs) : Except PyErr MatchReturn × List Event :=
  match resolve1 env fitsfile1 header kwargs with
  | (Except.error e, tr) => (Except.error e, tr)
  | (Except.ok (hdr, image1?), tr1) =>
    match project_to_header env fitsfile2 hdr true true kwargs with
    | (Except.error e, tr2) => (Except.error e, tr1 ++ tr2)
    | (Except.ok image2?, tr2) =>
      match image1?, image2? with
      | some image1, some image2_projected =>
        if image1.shape ≠ image2_projected.shape then
          (Except.error
            (PyErr.valueError "Failed to reproject images to same shape."),
           tr1 ++ tr2)
        else if sigma_cut.truthy then
          if (overlapSum (cutImage env image1 sigma_cut)
              (cutImage env image2_projected sigma_cut)).feq (FVal.val 0) then
            (Except.ok (mkReturns image1 image2_projected hdr return_header),
             tr1 ++ tr2)
          else
            (Except.ok (mkReturns (cutImage env image1 sigma_cut)
              (cutImage env image2_projected sigma_cut) hdr return_header),
             tr1 ++ tr2)
        else
          (Except.ok (mkReturns image1 image2_projected hdr return_header),
           tr1 ++ tr2)
      | _, _ => (Except.error PyErr.attributeError, tr1 ++ tr2)

/-- A concrete 2×2 image used by concrete instantiations. -/
def img0 : NDImage := ⟨[2, 2], [FVal.val 1, FVal.val 2, FVal.val 3, FVal.val 4]⟩

/-- A concrete header. -/
def hdr0 : Header := [("NAXIS", 2)]

/-- A second concrete header, distinct from `hdr0`. -/
def hdr1 : Header := [("NAXIS", 3)]

/-- Environment builder for concrete instantiations: availability flags,
the data every `getdata` returns, the fixed outcomes of the two backends,
and the fixed standard deviation. -/
def mkEnv (mOK hOK : Bool) (dat : NDImage) (rep hc : Except String NDImage)
    (sd : FVal) : Env :=
  ⟨mOK, hOK, fun _ => dat, fun _ => hdr0, id, fun _ _ _ _ => rep,
   fun _ _ _ _ => hc, fun _ => sd⟩

/-- No backend is importable. -/
def envNoBackend : Env :=
  mkEnv false false img0 (Except.ok img0) (Except.ok img0) (FVal.val 1)

/-- Only montage is importable and it succeeds. -/
def envMontage : Env :=
  mkEnv true false img0 (Except.ok img0) (Except.ok img0) (FVal.val 1)

/-- Only montage is importable and it raises. -/
def envMontageFail : Env :=
  mkEnv true false img0 (Except.error "montage failed") (Except.ok img0)
    (FVal.val 1)

/-- Only hcongrid is importable and it succeeds; standard deviation 1. -/
def envHcon : Env :=
  mkEnv false true img0 (Except.ok img0) (Except.ok img0) (FVal.val 1)

/-- Only hcongrid is importable; the reported standard deviation is so
large that every pixel is cut. -/
def envHconBig : Env :=
  mkEnv false true img0 (Except.ok img0) (Except.ok img0) (FVal.val 100)

/-- A concrete two-pixel image whose sigma-cut at one standard deviation
leaves exactly one nonzero pixel. -/
def img01 : NDImage := ⟨[2], [FVal.val 0, FVal.val 2]⟩

/-- Only hcongrid is importable; both files carry `img01`; standard
deviation 1. -/
def envSingle : Env :=
  mkEnv false true img01 (Except.ok img01) (Except.ok img01) (FVal.val 1)

lemma cutImage_shape (env : Env) (im : NDImage) (sc : FVal) :
    (cutImage env im sc).shape = im.shape := rfl

lemma mkReturns_shapeEq (i1 i2 : NDImage) (h : Header) (rh : Bool)
    (hsh : i1.shape = i2.shape) : (mkReturns i1 i2 h rh).shapeEq = true := by
  unfold mkReturns MatchReturn.shapeEq
  cases rh <;> simp [hsh]

lemma project_error_backend (env : Env) (f : FitsFile) (h : Header)
    (um q : Bool) (kw : KwArgs) (e : PyErr) (tr : List Event)
    (hp : project_to_header env f h um q kw = (Except.error e, tr)) :
    ∃ msg, e = PyErr.backendError msg := by
  unfold project_to_header at hp
  split at hp
  · split at hp
    · rw [Prod.mk.injEq] at hp
      obtain ⟨h1, _⟩ := hp
      injection h1 with h1
      exact ⟨_, h1.symm⟩
    · rw [Prod.mk.injEq] at hp
      exact absurd hp.1 (by simp)
  · split at hp
    · split at hp
      · rw [Prod.mk.injEq] at hp
        obtain ⟨h1, _⟩ := hp
        injection h1 with h1
        exact ⟨_, h1.symm⟩
      · rw [Prod.mk.injEq] at hp
        exact absurd hp.1 (by simp)
    · rw [Prod.mk.injEq] at hp
      exact absurd hp.1 (by simp)

lemma resolve1_error_backend (env : Env) (f1 : FitsFile)
    (header : Option Header) (kw : KwArgs) (e : PyErr) (tr : List Event)
    (hp : resolve1 env f1 header kw = (Except.error e, tr)) :
    ∃ msg, e = PyErr.backendError msg := by
  cases header with
  | none =>
    simp only [resolve1] at hp
    rw [Prod.mk.injEq] at hp
    exact absurd hp.1 (by simp)
  | some hdr =>
    simp only [resolve1] at hp
    rcases hq : project_to_header env f1 hdr true true kw with ⟨res, tr2⟩
    rw [hq] at hp
    cases res with
    | ok image1 =>
      rw [Prod.mk.injEq] at hp
      exact absurd hp.1 (by simp)
    | error e' =>
      rw [Prod.mk.injEq] at hp
      obtain ⟨h1, _⟩ := hp
      injection h1 with h1
      obtain ⟨msg, hmsg⟩ := project_error_backend env f1 hdr true true kw e' tr2 hq
      exact ⟨msg, by rw [← h1, hmsg]⟩

/-- C2 (amended): `project_to_header` falls through with no result exactly
when no backend branch is selectable — neither (montage available AND
preferred) nor hcongrid available; no explicit failure is raised on that
path.  Whenever a backend branch is selectable, the call produces an image
or propagates a backend failure. -/
theorem C2_project_fallthrough (env : Env) (f : FitsFile) (h : Header)
    (um q : Bool) (kw : KwArgs) :
    ((project_to_header env f h um q kw).1 = Except.ok none ↔
      (env.montageOK && um) = false ∧ env.hcongridOK = false) ∧
    ((env.montageOK && um) = true ∨ env.hcongridOK = true →
      (∃ img tr, project_to_header env f h um q kw =
          (Except.ok (some img), tr)) ∨
      (∃ msg tr, project_to_header env f h um q kw =
          (Except.error (PyErr.backendError msg), tr))) := by
  unfold project_to_header
  by_cases hm : (env.montageOK && um) = true
  · rw [if_pos hm]
    cases hr : env.reproject f h true q with
    | error msg =>
      refine ⟨⟨fun hc => absurd hc (by simp), fun hc => ?_⟩,
        fun _ => Or.inr ⟨msg, _, rfl⟩⟩
      rw [hm] at hc
      exact absurd hc.1 (by simp)
    | ok image =>
      refine ⟨⟨fun hc => absurd hc (by simp), fun hc => ?_⟩,
        fun _ => Or.inl ⟨image, _, rfl⟩⟩
      rw [hm] at hc
      exact absurd hc.1 (by simp)
  · have hm' : (env.montageOK && um) = false := by
      simp only [Bool.not_eq_true] at hm
      exact hm
    rw [if_neg hm]
    by_cases hh : env.hcongridOK = true
    · rw [if_pos hh]
      cases hr : env.hcongrid ((env.getdata f).squeeze)
          (env.flatten_header (env.getheader f)) h kw with
      | error msg =>
        refine ⟨⟨fun hc => absurd hc (by simp), fun hc => ?_⟩,
          fun _ => Or.inr ⟨msg, _, rfl⟩⟩
        rw [hh] at hc
        exact absurd hc.2 (by simp)
      | ok image =>
        refine ⟨⟨fun hc => absurd hc (by simp), fun hc => ?_⟩,
          fun _ => Or.inl ⟨image, _, rfl⟩⟩
        rw [hh] at hc
        exact absurd hc.2 (by simp)
    · have hh' : env.hcongridOK = false := by
        simp only [Bool.not_eq_true] at hh
        exact hh
      rw [if_neg hh]
      refine ⟨⟨fun _ => ⟨hm', hh'⟩, fun _ => rfl⟩, fun hc => ?_⟩
      cases hc with
      | inl hc => exact absurd hc (by rw [hm']; simp)
      | inr hc => exact absurd hc (by rw [hh']; simp)

/-- C2 counterexample: montage is importable (and hcongrid is not), yet a
call with `use_montage=False` still falls through with no result — so "a
result is produced whenever at least one backend is available" fails, and
the fall-through condition is not "both backends missing". -/
theorem C2_counterexample :
    envMontage.montageOK = true ∧
    (project_to_header envMontage "a.fits" hdr0 false true []).1 =
      Except.ok none :=
  ⟨rfl, rfl⟩

/-- C2 witness: with both backends missing the amended theorem yields the
fall-through result on a concrete call. -/
theorem C2_witness :
    (project_to_header envNoBackend "b.fits" hdr0 true true []).1 =
      Except.ok none :=
  (C2_project_fallthrough envNoBackend "b.fits" hdr0 true true []).1.mpr
    ⟨rfl, rfl⟩

/-- C3 (amended): on the montage path both temporary files are opened and,
when the backend call returns normally, both are closed before the call
ends; but when the backend call raises, the two `close` calls are skipped —
neither temporary file is closed on that exit path. -/
theorem C3_tempfile_release (env : Env) (f : FitsFile) (h : Header)
    (um q : Bool) (kw : KwArgs) (hm : (env.montageOK && um) = true) :
    (∀ img tr, project_to_header env f h um q kw = (Except.ok img, tr) →
      Event.openTemp 0 ∈ tr ∧ Event.openTemp 1 ∈ tr ∧
      Event.closeTemp 0 ∈ tr ∧ Event.closeTemp 1 ∈ tr) ∧
    (∀ e tr, project_to_header env f h um q kw = (Except.error e, tr) →
      Event.openTemp 0 ∈ tr ∧ Event.openTemp 1 ∈ tr ∧
      Event.closeTemp 0 ∉ tr ∧ Event.closeTemp 1 ∉ tr) := by
  unfold project_to_header
  rw [if_pos hm]
  cases hr : env.reproject f h true q with
  | error msg =>
    constructor
    · intro img tr hp
      rw [Prod.mk.injEq] at hp
      exact absurd hp.1 (by simp)
    · intro e tr hp
      rw [Prod.mk.injEq] at hp
      rw [← hp.2]
      refine ⟨by simp, by simp, ?_, ?_⟩ <;> simp
  | ok image =>
    constructor
    · intro img tr hp
      rw [Prod.mk.injEq] at hp
      rw [← hp.2]
      refine ⟨by simp, by simp, by simp, by simp⟩
    · intro e tr hp
      rw [Prod.mk.injEq] at hp
      exact absurd hp.1 (by simp)

/-- C3 counterexample: montage is available but its backend call raises;
both temporary files are opened and neither is ever closed — the
release-on-all-exit-paths claim fails on the backend-failure path. -/
theorem C3_counterexample :
    Event.openTemp 0 ∈
      (project_to_header envMontageFail "a.fits" hdr0 true true []).2 ∧
    Event.openTemp 1 ∈
      (project_to_header envMontageFail "a.fits" hdr0 true true []).2 ∧
    Event.closeTemp 0 ∉
      (project_to_header envMontageFail "a.fits" hdr0 true true []).2 ∧
    Event.closeTemp 1 ∉
      (project_to_header envMontageFail "a.fits" hdr0 true true []).2 := by
  decide

/-- C3 witness: on a concrete successful montage call, the amended theorem
shows the serialized-header temp file is closed. -/
theorem C3_witness :
    Event.closeTemp 0 ∈
      (project_to_header envMontage "a.fits" hdr0 true true []).2 := by
  have h := (C3_tempfile_release envMontage "a.fits" hdr0 true true [] rfl).1
    (some img0) (project_to_header envMontage "a.fits" hdr0 true true []).2 rfl
  exact h.2.2.1

lemma match_fits_resolve1_error (env : Env) (f1 f2 : FitsFile)
    (header : Option Header) (sc : FVal) (rh : Bool) (kw : KwArgs)
    (e : PyErr) (tr1 : List Event)
    (h1 : resolve1 env f1 header kw = (Except.error e, tr1)) :
    match_fits env f1 f2 header sc rh kw = (Except.error e, tr1) := by
  unfold match_fits
  rw [h1]

lemma match_fits_proj2_error (env : Env) (f1 f2 : FitsFile)
    (header : Option Header) (sc : FVal) (rh : Bool) (kw : KwArgs)
    (hdr : Header) (i1? : Option NDImage) (e : PyErr) (tr1 tr2 : List Event)
    (h1 : resolve1 env f1 header kw = (Except.ok (hdr, i1?), tr1))
    (h2 : project_to_header env f2 hdr true true kw = (Except.error e, tr2)) :
    match_fits env f1 f2 header sc rh kw = (Except.error e, tr1 ++ tr2) := by
  unfold match_fits
  simp only [h1]
  simp only [h2]

lemma match_fits_undef (env : Env) (f1 f2 : FitsFile)
    (header : Option Header) (sc : FVal) (rh : Bool) (kw : KwArgs)
    (hdr : Header) (i1? i2? : Option NDImage) (tr1 tr2 : List Event)
    (h1 : resolve1 env f1 header kw = (Except.ok (hdr, i1?), tr1))
    (h2 : project_to_header env f2 hdr true true kw = (Except.ok i2?, tr2))
    (hnone : i1? = none ∨ i2? = none) :
    match_fits env f1 f2 header sc rh kw =
      (Except.error PyErr.attributeError, tr1 ++ tr2) := by
  unfold match_fits
  simp only [h1]
  simp only [h2]
  cases i1? with
  | none => rfl
  | some i1 =>
    cases i2? with
    | none => rfl
    | some i2 =>
      cases hnone with
      | inl hc => exact absurd hc (by simp)
      | inr hc => exact absurd hc (by simp)

lemma match_fits_shape_error (env : Env) (f1 f2 : FitsFile)
    (header : Option Header) (sc : FVal) (rh : Bool) (kw : KwArgs)
    (hdr : Header) (i1 i2 : NDImage) (tr1 tr2 : List Event)
    (h1 : resolve1 env f1 header kw = (Except.ok (hdr, some i1), tr1))
    (h2 : project_to_header env f2 hdr true true kw = (Except.ok (some i2), tr2))
    (hsh : i1.shape ≠ i2.shape) :
    match_fits env f1 f2 header sc rh kw =
      (Except.error
        (PyErr.valueError "Failed to reproject images to same shape."),
       tr1 ++ tr2) := by
  unfold match_fits
  simp only [h1]
  simp only [h2]
  simp only [if_pos hsh]

lemma match_fits_ok_char (env : Env) (f1 f2 : FitsFile)
    (header : Option Header) (sc : FVal) (rh : Bool) (kw : KwArgs)
    (hdr : Header) (i1 i2 : NDImage) (tr1 tr2 : List Event)
    (h1 : resolve1 env f1 header kw = (Except.ok (hdr, some i1), tr1))
    (h2 : project_to_header env f2 hdr true true kw = (Except.ok (some i2), tr2))
    (hsh : i1.shape = i2.shape) :
    match_fits env f1 f2 header sc rh kw =
      (Except.ok (if sc.truthy then
          (if (overlapSum (cutImage env i1 sc) (cutImage env i2 sc)).feq
              (FVal.val 0) then
            mkReturns i1 i2 hdr rh
          else
            mkReturns (cutImage env i1 sc) (cutImage env i2 sc) hdr rh)
        else mkReturns i1 i2 hdr rh), tr1 ++ tr2) := by
  unfold match_fits
  simp only [h1]
  simp only [h2]
  simp only [if_neg (not_not_intro hsh)]
  by_cases ht : sc.truthy = true
  · rw [if_pos ht, if_pos ht]
    by_cases hd : (overlapSum (cutImage env i1 sc) (cutImage env i2 sc)).feq
        (FVal.val 0) = true
    · rw [if_pos hd, if_pos hd]
    · rw [if_neg hd, if_neg hd]
  · rw [if_neg ht, if_neg ht]

/-- C1: `match_fits` raises its value-validation error exactly when the two
arrays resolved for file 1 and file 2 were both obtained and have different
shapes; and every normal return carries two images of identical shape. -/
theorem C1_shape_invariant (env : Env) (f1 f2 : FitsFile)
    (header : Option Header) (sc : FVal) (rh : Bool) (kw : KwArgs) :
    (∀ r tr, match_fits env f1 f2 header sc rh kw = (Except.ok r, tr) →
      r.shapeEq = true) ∧
    ((∃ msg tr, match_fits env f1 f2 header sc rh kw =
        (Except.error (PyErr.valueError msg), tr)) ↔
      (∃ hdr i1 i2 tr1 tr2,
        resolve1 env f1 header kw = (Except.ok (hdr, some i1), tr1) ∧
        project_to_header env f2 hdr true true kw =
          (Except.ok (some i2), tr2) ∧
        i1.shape ≠ i2.shape)) := by
  rcases hR : resolve1 env f1 header kw with ⟨res1, tr1⟩
  cases res1 with
  | error e =>
    have hmf := match_fits_resolve1_error env f1 f2 header sc rh kw e tr1 hR
    constructor
    · intro r tr h
      rw [hmf, Prod.mk.injEq] at h
      exact absurd h.1 (by simp)
    · constructor
      · rintro ⟨msg, tr, h⟩
        rw [hmf, Prod.mk.injEq] at h
        obtain ⟨msg2, hmsg⟩ := resolve1_error_backend env f1 header kw e tr1 hR
        injection h.1 with h1
        rw [hmsg] at h1
        exact absurd h1 (by simp)
      · rintro ⟨hdr, i1, i2, tr1', tr2', hr1, hr2, hne⟩
        rw [Prod.mk.injEq] at hr1
        exact absurd hr1.1 (by simp)
  | ok p =>
    obtain ⟨hdr, i1?⟩ := p
    rcases hP : project_to_header env f2 hdr true true kw with ⟨res2, tr2⟩
    cases res2 with
    | error e =>
      have hmf := match_fits_proj2_error env f1 f2 header sc rh kw hdr i1? e
        tr1 tr2 hR hP
      constructor
      · intro r tr h
        rw [hmf, Prod.mk.injEq] at h
        exact absurd h.1 (by simp)
      · constructor
        · rintro ⟨msg, tr, h⟩
          rw [hmf, Prod.mk.injEq] at h
          obtain ⟨m2, hm2⟩ := project_error_backend env f2 hdr true true kw e
            tr2 hP
          injection h.1 with h1
          rw [hm2] at h1
          exact absurd h1 (by simp)
        · rintro ⟨hdr', i1, i2, tr1', tr2', hr1, hr2, hne⟩
          rw [Prod.mk.injEq] at hr1
          obtain ⟨ha, _⟩ := hr1
          injection ha with ha
          rw [Prod.mk.injEq] at ha
          rw [← ha.1] at hr2
          rw [hP, Prod.mk.injEq] at hr2
          exact absurd hr2.1 (by simp)
    | ok i2? =>
      cases i1? with
      | none =>
        have hmf := match_fits_undef env f1 f2 header sc rh kw hdr none i2?
          tr1 tr2 hR hP (Or.inl rfl)
        constructor
        · intro r tr h
          rw [hmf, Prod.mk.injEq] at h
          exact absurd h.1 (by simp)
        · constructor
          · rintro ⟨msg, tr, h⟩
            rw [hmf, Prod.mk.injEq] at h
            injection h.1 with h1
            exact absurd h1 (by simp)
          · rintro ⟨hdr', i1, i2, tr1', tr2', hr1, hr2, hne⟩
            rw [Prod.mk.injEq] at hr1
            obtain ⟨ha, _⟩ := hr1
            injection ha with ha
            rw [Prod.mk.injEq] at ha
            exact absurd ha.2 (by simp)
      | some i1 =>
        cases i2? with
        | none =>
          have hmf := match_fits_undef env f1 f2 header sc rh kw hdr (some i1)
            none tr1 tr2 hR hP (Or.inr rfl)
          constructor
          · intro r tr h
            rw [hmf, Prod.mk.injEq] at h
            exact absurd h.1 (by simp)
          · constructor
            · rintro ⟨msg, tr, h⟩
              rw [hmf, Prod.mk.injEq] at h
              injection h.1 with h1
              exact absurd h1 (by simp)
            · rintro ⟨hdr', i1', i2, tr1', tr2', hr1, hr2, hne⟩
              rw [Prod.mk.injEq] at hr1
              obtain ⟨ha, _⟩ := hr1
              injection ha with ha
              rw [Prod.mk.injEq] at ha
              rw [← ha.1] at hr2
              rw [hP, Prod.mk.injEq] at hr2
              obtain ⟨hb, _⟩ := hr2
              injection hb with hb
              exact absurd hb (by simp)
        | some i2 =>
          by_cases hsh : i1.shape = i2.shape
          · have hmf := match_fits_ok_char env f1 f2 header sc rh kw hdr i1 i2
              tr1 tr2 hR hP hsh
            constructor
            · intro r tr h
              rw [hmf, Prod.mk.injEq] at h
              injection h.1 with h1
              rw [← h1]
              by_cases ht : sc.truthy = true
              · rw [if_pos ht]
                by_cases hd : (overlapSum (cutImage env i1 sc)
                    (cutImage env i2 sc)).feq (FVal.val 0) = true
                · rw [if_pos hd]
                  exact mkReturns_shapeEq i1 i2 hdr rh hsh
                · rw [if_neg hd]
                  exact mkReturns_shapeEq _ _ hdr rh
                    (by rw [cutImage_shape, cutImage_shape]; exact hsh)
              · rw [if_neg ht]
                exact mkReturns_shapeEq i1 i2 hdr rh hsh
            · constructor
              · rintro ⟨msg, tr, h⟩
                rw [hmf, Prod.mk.injEq] at h
                exact absurd h.1 (by simp)
              · rintro ⟨hdr', i1', i2', tr1', tr2', hr1, hr2, hne⟩
                rw [Prod.mk.injEq] at hr1
                obtain ⟨ha, _⟩ := hr1
                injection ha with ha
                rw [Prod.mk.injEq] at ha
                obtain ⟨ha1, ha2⟩ := ha
                injection ha2 with hi1
                rw [← ha1] at hr2
                rw [hP, Prod.mk.injEq] at hr2
                obtain ⟨hb, _⟩ := hr2
                injection hb with hb
                injection hb with hi2
                rw [← hi1, ← hi2] at hne
                exact absurd hsh hne
          · have hmf := match_fits_shape_error env f1 f2 header sc rh kw hdr
              i1 i2 tr1 tr2 hR hP hsh
            constructor
            · intro r tr h
              rw [hmf, Prod.mk.injEq] at h
              exact absurd h.1 (by simp)
            · constructor
              · intro _
                exact ⟨hdr, i1, i2, tr1, tr2, rfl, hP, hsh⟩
              · intro _
                exact ⟨"Failed to reproject images to same shape.",
                  tr1 ++ tr2, hmf⟩

/-- C1 witness: a concrete successful match returns two images of the same
shape. -/
theorem C1_witness :
    MatchReturn.shapeEq (MatchReturn.pair img0.squeeze img0) = true :=
  (C1_shape_invariant envHcon "a.fits" "b.fits" none (FVal.val 0) false
      []).1 (MatchReturn.pair img0.squeeze img0)
    (match_fits envHcon "a.fits" "b.fits" none (FVal.val 0) false []).2 rfl

lemma mkReturns_true (i1 i2 : NDImage) (h : Header) :
    mkReturns i1 i2 h true = MatchReturn.triple i1 i2 h := rfl

lemma mkReturns_false (i1 i2 : NDImage) (h : Header) :
    mkReturns i1 i2 h false = MatchReturn.pair i1 i2 := rfl

lemma resolve1_some_hdr (env : Env) (f1 : FitsFile) (h : Header)
    (kw : KwArgs) (hdr : Header) (i1? : Option NDImage) (tr : List Event)
    (hr : resolve1 env f1 (some h) kw = (Except.ok (hdr, i1?), tr)) :
    hdr = h := by
  simp only [resolve1] at hr
  rcases hq : project_to_header env f1 h true true kw with ⟨res, tr2⟩
  rw [hq] at hr
  cases res with
  | ok image1 =>
    rw [Prod.mk.injEq] at hr
    obtain ⟨ha, _⟩ := hr
    injection ha with ha
    rw [Prod.mk.injEq] at ha
    exact ha.1.symm
  | error e =>
    rw [Prod.mk.injEq] at hr
    exact absurd hr.1 (by simp)

lemma match_fits_ok_inv (env : Env) (f1 f2 : FitsFile)
    (header : Option Header) (sc : FVal) (rh : Bool) (kw : KwArgs)
    (r : MatchReturn) (tr : List Event)
    (h : match_fits env f1 f2 header sc rh kw = (Except.ok r, tr)) :
    ∃ hdr i1 i2 tr1 tr2,
      resolve1 env f1 header kw = (Except.ok (hdr, some i1), tr1) ∧
      project_to_header env f2 hdr true true kw =
        (Except.ok (some i2), tr2) ∧
      i1.shape = i2.shape ∧ tr = tr1 ++ tr2 ∧
      r = (if sc.truthy then
            (if (overlapSum (cutImage env i1 sc) (cutImage env i2 sc)).feq
                (FVal.val 0) then
              mkReturns i1 i2 hdr rh
            else mkReturns (cutImage env i1 sc) (cutImage env i2 sc) hdr rh)
          else mkReturns i1 i2 hdr rh) := by
  rcases hR : resolve1 env f1 header kw with ⟨res1, tr1⟩
  cases res1 with
  | error e =>
    rw [match_fits_resolve1_error env f1 f2 header sc rh kw e tr1 hR,
      Prod.mk.injEq] at h
    exact absurd h.1 (by simp)
  | ok p =>
    obtain ⟨hdr, i1?⟩ := p
    rcases hP : project_to_header env f2 hdr true true kw with ⟨res2, tr2⟩
    cases res2 with
    | error e =>
      rw [match_fits_proj2_error env f1 f2 header sc rh kw hdr i1? e tr1 tr2
        hR hP, Prod.mk.injEq] at h
      exact absurd h.1 (by simp)
    | ok i2? =>
      cases i1? with
      | none =>
        rw [match_fits_undef env f1 f2 header sc rh kw hdr none i2? tr1 tr2
          hR hP (Or.inl rfl), Prod.mk.injEq] at h
        exact absurd h.1 (by simp)
      | some i1 =>
        cases i2? with
        | none =>
          rw [match_fits_undef env f1 f2 header sc rh kw hdr (some i1) none
            tr1 tr2 hR hP (Or.inr rfl), Prod.mk.injEq] at h
          exact absurd h.1 (by simp)
        | some i2 =>
          by_cases hsh : i1.shape = i2.shape
          · rw [match_fits_ok_char env f1 f2 header sc rh kw hdr i1 i2 tr1
              tr2 hR hP hsh, Prod.mk.injEq] at h
            obtain ⟨ha, hb⟩ := h
            injection ha with ha
            exact ⟨hdr, i1, i2, tr1, tr2, rfl, hP, hsh, hb.symm, ha.symm⟩
          · rw [match_fits_shape_error env f1 f2 header sc rh kw hdr i1 i2
              tr1 tr2 hR hP hsh, Prod.mk.injEq] at h
            exact absurd h.1 (by simp)

lemma match_fits_trace (env : Env) (f1 f2 : FitsFile)
    (header : Option Header) (sc : FVal) (rh : Bool) (kw : KwArgs)
    (hdr : Header) (i1? : Option NDImage)
    (res2 : Except PyErr (Option NDImage)) (tr1 tr2 : List Event)
    (h1 : resolve1 env f1 header kw = (Except.ok (hdr, i1?), tr1))
    (h2 : project_to_header env f2 hdr true true kw = (res2, tr2)) :
    (match_fits env f1 f2 header sc rh kw).2 = tr1 ++ tr2 := by
  cases res2 with
  | error e =>
    rw [match_fits_proj2_error env f1 f2 header sc rh kw hdr i1? e tr1 tr2
      h1 h2]
  | ok i2? =>
    cases i1? with
    | none =>
      rw [match_fits_undef env f1 f2 header sc rh kw hdr none i2? tr1 tr2
        h1 h2 (Or.inl rfl)]
    | some i1 =>
      cases i2? with
      | none =>
        rw [match_fits_undef env f1 f2 header sc rh kw hdr (some i1) none
          tr1 tr2 h1 h2 (Or.inr rfl)]
      | some i2 =>
        by_cases hsh : i1.shape = i2.shape
        · rw [match_fits_ok_char env f1 f2 header sc rh kw hdr i1 i2 tr1 tr2
            h1 h2 hsh]
        · rw [match_fits_shape_error env f1 f2 header sc rh kw hdr i1 i2 tr1
            tr2 h1 h2 hsh]

/-- C5: with no caller-supplied header, the working header is the flattened
header of file 1 and image 1 is file 1's raw squeezed data (the resolution
step performs no projection and records no events — the call's whole trace
is that of file 2's projection); when the header is requested, every
normal return carries exactly that flattened header. -/
theorem C5_no_header (env : Env) (f1 f2 : FitsFile) (sc : FVal) (rh : Bool)
    (kw : KwArgs) :
    resolve1 env f1 none kw =
      (Except.ok (env.flatten_header (env.getheader f1),
        some ((env.getdata f1).squeeze)), []) ∧
    (match_fits env f1 f2 none sc rh kw).2 =
      (project_to_header env f2 (env.flatten_header (env.getheader f1))
        true true kw).2 ∧
    (rh = true → ∀ i1 i2 h tr,
      match_fits env f1 f2 none sc rh kw =
        (Except.ok (MatchReturn.triple i1 i2 h), tr) →
      h = env.flatten_header (env.getheader f1)) := by
  refine ⟨rfl, ?_, ?_⟩
  · rcases hP : project_to_header env f2
        (env.flatten_header (env.getheader f1)) true true kw with ⟨res2, tr2⟩
    rw [match_fits_trace env f1 f2 none sc rh kw
      (env.flatten_header (env.getheader f1))
      (some ((env.getdata f1).squeeze)) res2 [] tr2 rfl hP]
    rw [List.nil_append]
  · intro hrh i1 i2 h tr heq
    subst hrh
    obtain ⟨hdr', i1', i2', tr1', tr2', hr1, hr2, hsh, htr, hr⟩ :=
      match_fits_ok_inv env f1 f2 none sc true kw _ tr heq
    have h1 : resolve1 env f1 none kw =
        (Except.ok (env.flatten_header (env.getheader f1),
          some ((env.getdata f1).squeeze)), []) := rfl
    rw [h1, Prod.mk.injEq] at hr1
    obtain ⟨ha, _⟩ := hr1
    injection ha with ha
    rw [Prod.mk.injEq] at ha
    by_cases ht : sc.truthy = true
    · rw [if_pos ht] at hr
      by_cases hd : (overlapSum (cutImage env i1' sc)
          (cutImage env i2' sc)).feq (FVal.val 0) = true
      · rw [if_pos hd, mkReturns_true] at hr
        injection hr with _ _ h3
        rw [h3]
        exact ha.1.symm
      · rw [if_neg hd, mkReturns_true] at hr
        injection hr with _ _ h3
        rw [h3]
        exact ha.1.symm
    · rw [if_neg ht, mkReturns_true] at hr
      injection hr with _ _ h3
      rw [h3]
      exact ha.1.symm

/-- C5 witness: on a concrete no-header call with the header requested,
the returned header is the flattened header of file 1. -/
theorem C5_witness :
    hdr0 = envHcon.flatten_header (envHcon.getheader "a.fits") :=
  (C5_no_header envHcon "a.fits" "b.fits" (FVal.val 0) true []).2.2 rfl
    img0.squeeze img0 hdr0
    (match_fits envHcon "a.fits" "b.fits" none (FVal.val 0) true []).2 rfl

/-- C6: with a falsy `sigma_cut`, the returned images are exactly the
grid-matched (pre-cut) images; no thresholding or masking is applied. -/
theorem C6_falsy_no_cut (env : Env) (f1 f2 : FitsFile)
    (header : Option Header) (sc : FVal) (rh : Bool) (kw : KwArgs)
    (hdr : Header) (i1 i2 : NDImage) (tr1 tr2 : List Event)
    (hf : sc.truthy = false)
    (h1 : resolve1 env f1 header kw = (Except.ok (hdr, some i1), tr1))
    (h2 : project_to_header env f2 hdr true true kw =
      (Except.ok (some i2), tr2))
    (hsh : i1.shape = i2.shape) :
    match_fits env f1 f2 header sc rh kw =
      (Except.ok (mkReturns i1 i2 hdr rh), tr1 ++ tr2) := by
  rw [match_fits_ok_char env f1 f2 header sc rh kw hdr i1 i2 tr1 tr2 h1 h2
    hsh]
  rw [if_neg (by rw [hf]; exact Bool.false_ne_true)]

/-- C6 witness: a concrete falsy-sigma-cut call returns the projected
images untouched. -/
theorem C6_witness :
    match_fits envHcon "a.fits" "b.fits" none (FVal.val 0) false [] =
      (Except.ok (mkReturns img0.squeeze img0 hdr0 false),
       [] ++ [Event.projectCall "b.fits" hdr0,
        Event.callHcongrid img0.squeeze hdr0 hdr0 []]) :=
  C6_falsy_no_cut envHcon "a.fits" "b.fits" none (FVal.val 0) false []
    hdr0 img0.squeeze img0 []
    [Event.projectCall "b.fits" hdr0,
      Event.callHcongrid img0.squeeze hdr0 hdr0 []] rfl rfl rfl rfl

/-- C10: when a header is supplied and the header is requested, every
normal return is a triple whose header component is exactly the
caller-supplied header; without the request the return is a pair (arity
2), with it a triple (arity 3). -/
theorem C10_return_arity (env : Env) (f1 f2 : FitsFile) (h : Header)
    (sc : FVal) (kw : KwArgs) :
    (∀ r tr, match_fits env f1 f2 (some h) sc true kw = (Except.ok r, tr) →
      ∃ i1 i2, r = MatchReturn.triple i1 i2 h) ∧
    (∀ header r tr,
      match_fits env f1 f2 header sc false kw = (Except.ok r, tr) →
      ∃ i1 i2, r = MatchReturn.pair i1 i2) ∧
    (∀ header r tr,
      match_fits env f1 f2 header sc true kw = (Except.ok r, tr) →
      ∃ i1 i2 hh, r = MatchReturn.triple i1 i2 hh) := by
  have harity : ∀ (header : Option Header) (rh : Bool) r tr,
      match_fits env f1 f2 header sc rh kw = (Except.ok r, tr) →
      ∃ i1 i2 hh, r = mkReturns i1 i2 hh rh ∧
        resolve1 env f1 header kw =
          ((resolve1 env f1 header kw).1.map (fun p => (hh, p.2)),
           (resolve1 env f1 header kw).2) := by
    intro header rh r tr heq
    obtain ⟨hdr', i1', i2', tr1', tr2', hr1, hr2, hsh, htr, hr⟩ :=
      match_fits_ok_inv env f1 f2 header sc rh kw r tr heq
    by_cases ht : sc.truthy = true
    · rw [if_pos ht] at hr
      by_cases hd : (overlapSum (cutImage env i1' sc)
          (cutImage env i2' sc)).feq (FVal.val 0) = true
      · rw [if_pos hd] at hr
        exact ⟨i1', i2', hdr', hr, by rw [hr1]; rfl⟩
      · rw [if_neg hd] at hr
        exact ⟨_, _, hdr', hr, by rw [hr1]; rfl⟩
    · rw [if_neg ht] at hr
      exact ⟨i1', i2', hdr', hr, by rw [hr1]; rfl⟩
  refine ⟨?_, ?_, ?_⟩
  · intro r tr heq
    obtain ⟨i1, i2, hh, hr, hres⟩ := harity (some h) true r tr heq
    have hh_eq : hh = h := by
      rcases hq : resolve1 env f1 (some h) kw with ⟨res1, tr1⟩
      rw [hq] at hres
      cases res1 with
      | error e => exact absurd heq (by
          rw [match_fits_resolve1_error env f1 f2 (some h) sc true kw e tr1
            hq]
          simp)
      | ok p =>
        obtain ⟨hdr, i1?⟩ := p
        have hp := resolve1_some_hdr env f1 h kw hdr i1? tr1 hq
        rw [Prod.mk.injEq] at hres
        obtain ⟨hb, _⟩ := hres
        injection hb with hb
        rw [Prod.mk.injEq] at hb
        rw [← hp]
        exact hb.1.symm
    rw [mkReturns_true] at hr
    exact ⟨i1, i2, by rw [hr, hh_eq]⟩
  · intro header r tr heq
    obtain ⟨i1, i2, hh, hr, _⟩ := harity header false r tr heq
    rw [mkReturns_false] at hr
    exact ⟨i1, i2, hr⟩
  · intro header r tr heq
    obtain ⟨i1, i2, hh, hr, _⟩ := harity header true r tr heq
    rw [mkReturns_true] at hr
    exact ⟨i1, i2, hh, hr⟩

/-- C10 witness: a concrete call with a supplied header and the header
requested returns a triple carrying exactly that header. -/
theorem C10_witness :
    ∃ i1 i2,
      (match_fits envHcon "a.fits" "b.fits" (some hdr0) (FVal.val 0) true
        []).1 = Except.ok (MatchReturn.triple i1 i2 hdr0) := by
  obtain ⟨i1, i2, hh⟩ :=
    (C10_return_arity envHcon "a.fits" "b.fits" hdr0 (FVal.val 0) []).1
      (MatchReturn.triple img0 img0 hdr0)
      (match_fits envHcon "a.fits" "b.fits" (some hdr0) (FVal.val 0) true
        []).2 rfl
  exact ⟨i1, i2, by rw [show (match_fits envHcon "a.fits" "b.fits"
    (some hdr0) (FVal.val 0) true []).1 =
      Except.ok (MatchReturn.triple img0 img0 hdr0) from rfl, hh]⟩

lemma project_trace_head (env : Env) (f : FitsFile) (hd : Header)
    (um q : Bool) (kw : KwArgs) :
    ∃ rest, (project_to_header env f hd um q kw).2 =
      Event.projectCall f hd :: rest := by
  unfold project_to_header
  by_cases hm : (env.montageOK && um) = true
  · rw [if_pos hm]
    cases hr : env.reproject f hd true q with
    | error e => exact ⟨_, rfl⟩
    | ok image => exact ⟨_, rfl⟩
  · rw [if_neg hm]
    by_cases hh : env.hcongridOK = true
    · rw [if_pos hh]
      cases hr : env.hcongrid ((env.getdata f).squeeze)
          (env.flatten_header (env.getheader f)) hd kw with
      | error e => exact ⟨_, rfl⟩
      | ok image => exact ⟨_, rfl⟩
    · rw [if_neg hh]
      exact ⟨[], rfl⟩

lemma match_fits_some_trace (env : Env) (f1 f2 : FitsFile) (h : Header)
    (sc : FVal) (rh : Bool) (kw : KwArgs) :
    ∃ rest, (match_fits env f1 f2 (some h) sc rh kw).2 =
      (project_to_header env f1 h true true kw).2 ++ rest := by
  rcases hq : project_to_header env f1 h true true kw with ⟨res1, trp⟩
  cases res1 with
  | error e =>
    have h1 : resolve1 env f1 (some h) kw = (Except.error e, trp) := by
      simp only [resolve1]
      rw [hq]
    rw [match_fits_resolve1_error env f1 f2 (some h) sc rh kw e trp h1]
    exact ⟨[], (List.append_nil trp).symm⟩
  | ok i1? =>
    have h1 : resolve1 env f1 (some h) kw = (Except.ok (h, i1?), trp) := by
      simp only [resolve1]
      rw [hq]
    rcases hp2 : project_to_header env f2 h true true kw with ⟨res2, tr2⟩
    exact ⟨tr2, match_fits_trace env f1 f2 (some h) sc rh kw h i1? res2 trp
      tr2 h1 hp2⟩

/-- C7 (amended): whenever a header is supplied, file 1 is reprojected
onto it through `project_to_header` — never skipped, whatever the header's
relation to file 1's native header and whatever the outcome; and file 2 is
reprojected onto the working header in every call in which the resolution
of image 1 completes without raising. -/
theorem C7_always_reproject (env : Env) (f1 f2 : FitsFile) (h : Header)
    (sc : FVal) (rh : Bool) (kw : KwArgs) :
    Event.projectCall f1 h ∈ (match_fits env f1 f2 (some h) sc rh kw).2 ∧
    (∀ (header : Option Header) (hdr : Header) (i1? : Option NDImage)
      (tr1 : List Event),
      resolve1 env f1 header kw = (Except.ok (hdr, i1?), tr1) →
      Event.projectCall f2 hdr ∈
        (match_fits env f1 f2 header sc rh kw).2) := by
  constructor
  · obtain ⟨rest, htr⟩ := match_fits_some_trace env f1 f2 h sc rh kw
    rw [htr]
    obtain ⟨rest2, hhead⟩ := project_trace_head env f1 h true true kw
    rw [hhead]
    exact List.mem_append_left _ (List.mem_cons_self _ _)
  · intro header hdr i1? tr1 hres
    rcases hp2 : project_to_header env f2 hdr true true kw with ⟨res2, tr2⟩
    rw [match_fits_trace env f1 f2 header sc rh kw hdr i1? res2 tr1 tr2 hres
      hp2]
    obtain ⟨rest2, hhead⟩ := project_trace_head env f2 hdr true true kw
    rw [hp2] at hhead
    refine List.mem_append_right _ ?_
    rw [show tr2 = Event.projectCall f2 hdr :: rest2 from hhead]
    exact List.mem_cons_self _ _

/-- C7 counterexample: with montage available but raising, a call that
supplies a header records the projection of file 1 and then propagates the
backend failure — file 2 is never reprojected, so "file 2 is always
reprojected in every call" fails.  The full trace is exhibited. -/
theorem C7_counterexample :
    match_fits envMontageFail "a.fits" "b.fits" (some hdr0) (FVal.val 0)
      false [] =
      (Except.error (PyErr.backendError "montage failed"),
       [Event.projectCall "a.fits" hdr0, Event.openTemp 0,
        Event.writeHeader 0 hdr0, Event.openTemp 1,
        Event.callReproject "a.fits" hdr0 true true]) ∧
    Event.projectCall "b.fits" hdr0 ∉
      (match_fits envMontageFail "a.fits" "b.fits" (some hdr0) (FVal.val 0)
        false []).2 := by
  constructor
  · rfl
  · decide

/-- C7 witness: on a concrete call whose image-1 resolution succeeds, the
amended theorem shows file 2 is reprojected onto the working header. -/
theorem C7_witness :
    Event.projectCall "b.fits" hdr0 ∈
      (match_fits envHcon "a.fits" "b.fits" none (FVal.val 0) false []).2 :=
  (C7_always_reproject envHcon "a.fits" "b.fits" hdr0 (FVal.val 0) false
    []).2 none hdr0 (some img0.squeeze) [] rfl

/-- C8: the montage backend is invoked exactly when it is available and
preferred (with `exact_size` forced and the quiet flag, and independently
of the caller's extra keyword options, which are never forwarded to it);
otherwise, when hcongrid is available, it is invoked with the squeezed
source data, the flattened source header, the target header, and the
caller's extra keyword options. -/
theorem C8_backend_selection (env : Env) (f : FitsFile) (hd : Header)
    (um q : Bool) (kw kw2 : KwArgs) :
    ((Event.callReproject f hd true q ∈
        (project_to_header env f hd um q kw).2) ↔
      (env.montageOK && um) = true) ∧
    ((env.montageOK && um) = false → env.hcongridOK = true →
      Event.callHcongrid ((env.getdata f).squeeze)
        (env.flatten_header (env.getheader f)) hd kw ∈
        (project_to_header env f hd um q kw).2) ∧
    ((env.montageOK && um) = true →
      project_to_header env f hd um q kw =
        project_to_header env f hd um q kw2) := by
  unfold project_to_header
  by_cases hm : (env.montageOK && um) = true
  · rw [if_pos hm]
    cases hr : env.reproject f hd true q with
    | error e =>
      refine ⟨⟨fun _ => hm, fun _ => by simp⟩,
        fun hmf _ => absurd hm (by rw [hmf]; simp),
        fun _ => by rw [if_pos hm]⟩
    | ok image =>
      refine ⟨⟨fun _ => hm, fun _ => by simp⟩,
        fun hmf _ => absurd hm (by rw [hmf]; simp),
        fun _ => by rw [if_pos hm]⟩
  · have hm' : (env.montageOK && um) = false := by
      simp only [Bool.not_eq_true] at hm
      exact hm
    rw [if_neg hm]
    by_cases hh : env.hcongridOK = true
    · rw [if_pos hh]
      cases hr : env.hcongrid ((env.getdata f).squeeze)
          (env.flatten_header (env.getheader f)) hd kw with
      | error e =>
        refine ⟨⟨fun hmem => ?_, fun hc => absurd hc (by rw [hm']; simp)⟩,
          fun _ _ => by simp, fun hc => absurd hc (by rw [hm']; simp)⟩
        simp at hmem
      | ok image =>
        refine ⟨⟨fun hmem => ?_, fun hc => absurd hc (by rw [hm']; simp)⟩,
          fun _ _ => by simp, fun hc => absurd hc (by rw [hm']; simp)⟩
        simp at hmem
    · have hh' : env.hcongridOK = false := by
        simp only [Bool.not_eq_true] at hh
        exact hh
      rw [if_neg hh]
      refine ⟨⟨fun hmem => ?_, fun hc => absurd hc (by rw [hm']; simp)⟩,
        fun _ hc => absurd hc (by rw [hh']; simp),
        fun hc => absurd hc (by rw [hm']; simp)⟩
      simp at hmem

/-- C8 witness: on a concrete call with montage missing and hcongrid
available, the fallback receives the squeezed data, flattened source
header, target header, and the kwargs. -/
theorem C8_witness :
    Event.callHcongrid img0.squeeze hdr0 hdr0 [("order", 1)] ∈
      (project_to_header envHcon "b.fits" hdr0 true true
        [("order", 1)]).2 :=
  (C8_backend_selection envHcon "b.fits" hdr0 true true [("order", 1)]
    []).2.1 rfl rfl

lemma foldl_add_val (qs : List ℚ) (a : ℚ) :
    (qs.map FVal.val).foldl FVal.add (FVal.val a) = FVal.val (a + qs.sum) := by
  induction qs generalizing a with
  | nil => simp
  | cons q tl ih =>
    simp only [List.map_cons, List.foldl_cons]
    rw [show FVal.add (FVal.val a) (FVal.val q) = FVal.val (a + q) from rfl]
    rw [ih, List.sum_cons]
    congr 1
    ring

lemma npSum_map_val (qs : List ℚ) :
    npSum (qs.map FVal.val) = FVal.val qs.sum := by
  unfold npSum
  rw [foldl_add_val, zero_add]

lemma sum_zero_of_filter_nil (l : List ℚ)
    (h : l.filter (fun x => decide (x ≠ 0)) = []) : l.sum = 0 := by
  refine List.sum_eq_zero ?_
  intro x hx
  have hall := List.filter_eq_nil_iff.mp h x hx
  simpa using hall

lemma sum_of_single_filter (l : List ℚ) (q : ℚ)
    (h : l.filter (fun x => decide (x ≠ 0)) = [q]) : l.sum = q := by
  induction l with
  | nil => simp at h
  | cons a tl ih =>
    rw [List.filter_cons] at h
    by_cases ha : a = 0
    · rw [if_neg (by simp [ha])] at h
      rw [List.sum_cons, ha, zero_add]
      exact ih h
    · rw [if_pos (by simp [ha])] at h
      injection h with h1 h2
      rw [List.sum_cons, h1, sum_zero_of_filter_nil tl h2, add_zero]

lemma single_filter_ne_zero (l : List ℚ) (q : ℚ)
    (h : l.filter (fun x => decide (x ≠ 0)) = [q]) : q ≠ 0 := by
  have hmem : q ∈ l.filter (fun x => decide (x ≠ 0)) := by
    rw [h]
    exact List.mem_cons_self _ _
  have hq := List.of_mem_filter hmem
  simpa using hq

/-- C4: with a truthy `sigma_cut`, if the products of the two cut images
over the positions where both are non-NaN sum to exactly zero, the cut is
discarded and the pre-cut grid-matched images are returned; the comparison
is exact, so when exactly one overlapping product is nonzero (and the rest
are zero) the sum is that product, the degenerate fallback is not taken,
and the cut images are returned. -/
theorem C4_degenerate_cut (env : Env) (f1 f2 : FitsFile)
    (header : Option Header) (sc : FVal) (rh : Bool) (kw : KwArgs)
    (hdr : Header) (i1 i2 : NDImage) (tr1 tr2 : List Event)
    (h1 : resolve1 env f1 header kw = (Except.ok (hdr, some i1), tr1))
    (h2 : project_to_header env f2 hdr true true kw =
      (Except.ok (some i2), tr2))
    (hsh : i1.shape = i2.shape)
    (ht : sc.truthy = true) :
    ((overlapSum (cutImage env i1 sc) (cutImage env i2 sc)).feq (FVal.val 0)
        = true →
      match_fits env f1 f2 header sc rh kw =
        (Except.ok (mkReturns i1 i2 hdr rh), tr1 ++ tr2)) ∧
    (∀ (qs : List ℚ) (q : ℚ),
      npMulList
        (npSelect (okMask (cutImage env i1 sc).data
          (cutImage env i2 sc).data) (cutImage env i1 sc).data)
        (npSelect (okMask (cutImage env i1 sc).data
          (cutImage env i2 sc).data) (cutImage env i2 sc).data) =
        qs.map FVal.val →
      qs.filter (fun x => decide (x ≠ 0)) = [q] →
      (overlapSum (cutImage env i1 sc) (cutImage env i2 sc)).feq (FVal.val 0)
          = false ∧
      match_fits env f1 f2 header sc rh kw =
        (Except.ok (mkReturns (cutImage env i1 sc) (cutImage env i2 sc)
          hdr rh), tr1 ++ tr2)) := by
  have hchar := match_fits_ok_char env f1 f2 header sc rh kw hdr i1 i2 tr1
    tr2 h1 h2 hsh
  constructor
  · intro hdeg
    rw [hchar, if_pos ht, if_pos hdeg]
  · intro qs q hlist hfil
    have hne : (overlapSum (cutImage env i1 sc) (cutImage env i2 sc)).feq
        (FVal.val 0) = false := by
      have hsum : overlapSum (cutImage env i1 sc) (cutImage env i2 sc) =
          FVal.val qs.sum := by
        unfold overlapSum
        rw [hlist, npSum_map_val]
      rw [hsum, sum_of_single_filter qs q hfil]
      have hq := single_filter_ne_zero qs q hfil
      simp [FVal.feq, hq]
    refine ⟨hne, ?_⟩
    rw [hchar, if_pos ht,
      if_neg (by rw [hne]; exact Bool.false_ne_true)]

/-- C4 witness: a concrete image pair whose cut leaves exactly one nonzero
overlapping product is not treated as degenerate and comes back cut. -/
theorem C4_witness :
    (overlapSum (cutImage envSingle img01.squeeze (FVal.val 1))
        (cutImage envSingle img01 (FVal.val 1))).feq (FVal.val 0) = false ∧
    match_fits envSingle "a.fits" "b.fits" none (FVal.val 1) false [] =
      (Except.ok (mkReturns (cutImage envSingle img01.squeeze (FVal.val 1))
        (cutImage envSingle img01 (FVal.val 1)) hdr0 false),
       [] ++ [Event.projectCall "b.fits" hdr0,
        Event.callHcongrid img01.squeeze hdr0 hdr0 []]) :=
  (C4_degenerate_cut envSingle "a.fits" "b.fits" none (FVal.val 1) false []
    hdr0 img01.squeeze img01 []
    [Event.projectCall "b.fits" hdr0,
      Event.callHcongrid img01.squeeze hdr0 hdr0 []]
    rfl rfl rfl rfl).2 [0, 4] 4
    (by norm_num [npMulList, npSelect, okMask, cutImage, NDImage.emap,
      NDImage.squeeze, envSingle, mkEnv, img01, FVal.mul, FVal.gt,
      FVal.feq, boolToF])
    (by decide)

lemma cut_pixel (env : Env) (im : NDImage) (sc : FVal) (v : FVal) :
    v.mul (boolToF (v.gt ((env.std im).mul sc))) =
      (if v.gt ((env.std im).mul sc) = true then v
       else if v = FVal.nan then FVal.nan else FVal.val 0) := by
  cases v with
  | nan => simp [FVal.gt, FVal.mul, boolToF]
  | val a =>
    by_cases hg : FVal.gt (FVal.val a) ((env.std im).mul sc) = true
    · rw [if_pos hg, hg]
      simp [boolToF, FVal.mul, mul_one]
    · have hb : FVal.gt (FVal.val a) ((env.std im).mul sc) = false := by
        simp only [Bool.not_eq_true] at hg
        exact hg
      rw [if_neg hg, if_neg (by simp), hb]
      simp [boolToF, FVal.mul, mul_zero]

lemma FVal.nan_mul (x : FVal) : FVal.nan.mul x = FVal.nan := by
  cases x <;> rfl

lemma FVal.gt_nan (v : FVal) : v.gt FVal.nan = false := by
  cases v <;> rfl

lemma feq_self_val (v : FVal) (h : v.feq v = true) : ∃ a, v = FVal.val a := by
  cases v with
  | nan => simp [FVal.feq] at h
  | val a => exact ⟨a, rfl⟩

lemma cut_entry_zero_or_nan (env : Env) (im : NDImage) (sc : FVal)
    (hstd : env.std im = FVal.nan) :
    ∀ w ∈ (cutImage env im sc).data, w = FVal.val 0 ∨ w = FVal.nan := by
  intro w hw
  simp only [cutImage, NDImage.emap, List.mem_map] at hw
  obtain ⟨v, _, hw⟩ := hw
  rw [hstd, FVal.nan_mul, FVal.gt_nan] at hw
  cases v with
  | nan =>
    right
    rw [← hw]
    rfl
  | val a =>
    left
    rw [← hw]
    show FVal.val (a * 0) = FVal.val 0
    rw [mul_zero]

lemma okMask_cons (a b : FVal) (t1 t2 : List FVal) :
    okMask (a :: t1) (b :: t2) = (a.feq a && b.feq b) :: okMask t1 t2 := rfl

lemma npSelect_cons (m : Bool) (ms : List Bool) (x : FVal)
    (xs : List FVal) :
    npSelect (m :: ms) (x :: xs) =
      if m then x :: npSelect ms xs else npSelect ms xs := by
  cases m with
  | true => rfl
  | false => rfl

lemma npMulList_cons (x y : FVal) (xs ys : List FVal) :
    npMulList (x :: xs) (y :: ys) = x.mul y :: npMulList xs ys := rfl

lemma mem_okProducts (l1 : List FVal) (w : FVal) : ∀ l2 : List FVal,
    w ∈ npMulList (npSelect (okMask l1 l2) l1)
      (npSelect (okMask l1 l2) l2) →
    ∃ u v, u ∈ l1 ∧ v ∈ l2 ∧ u.feq u = true ∧ v.feq v = true ∧
      w = u.mul v := by
  induction l1 with
  | nil =>
    intro l2 hw
    simp [okMask, npSelect, npMulList] at hw
  | cons a t1 ih =>
    intro l2 hw
    cases l2 with
    | nil => simp [okMask, npSelect, npMulList] at hw
    | cons b t2 =>
      rw [okMask_cons, npSelect_cons, npSelect_cons] at hw
      by_cases hm : (a.feq a && b.feq b) = true
      · rw [if_pos hm, if_pos hm, npMulList_cons, List.mem_cons] at hw
        rw [Bool.and_eq_true] at hm
        cases hw with
        | inl hw =>
          exact ⟨a, b, List.mem_cons_self _ _, List.mem_cons_self _ _,
            hm.1, hm.2, hw⟩
        | inr hw =>
          obtain ⟨u, v, hu, hv, hfu, hfv, hweq⟩ := ih t2 hw
          exact ⟨u, v, List.mem_cons_of_mem _ hu,
            List.mem_cons_of_mem _ hv, hfu, hfv, hweq⟩
      · rw [if_neg hm, if_neg hm] at hw
        obtain ⟨u, v, hu, hv, hfu, hfv, hweq⟩ := ih t2 hw
        exact ⟨u, v, List.mem_cons_of_mem _ hu,
          List.mem_cons_of_mem _ hv, hfu, hfv, hweq⟩

lemma okProducts_zero (l1 l2 : List FVal)
    (h : (∀ w ∈ l1, w = FVal.val 0 ∨ w = FVal.nan) ∨
      (∀ w ∈ l2, w = FVal.val 0 ∨ w = FVal.nan)) :
    ∀ w ∈ npMulList (npSelect (okMask l1 l2) l1)
      (npSelect (okMask l1 l2) l2), w = FVal.val 0 := by
  intro w hw
  obtain ⟨u, v, hu, hv, hfu, hfv, hweq⟩ := mem_okProducts l1 w l2 hw
  obtain ⟨a, ha⟩ := feq_self_val u hfu
  obtain ⟨b, hb⟩ := feq_self_val v hfv
  cases h with
  | inl h =>
    cases h u hu with
    | inl h0 =>
      rw [hweq, h0, hb]
      show FVal.val (0 * b) = FVal.val 0
      rw [zero_mul]
    | inr hn =>
      rw [hn] at ha
      exact absurd ha (by simp)
  | inr h =>
    cases h v hv with
    | inl h0 =>
      rw [hweq, h0, ha]
      show FVal.val (a * 0) = FVal.val 0
      rw [mul_zero]
    | inr hn =>
      rw [hn] at hb
      exact absurd hb (by simp)

lemma npSum_zero (l : List FVal) :
    (∀ w ∈ l, w = FVal.val 0) → npSum l = FVal.val 0 := by
  induction l with
  | nil =>
    intro _
    rfl
  | cons a tl ih =>
    intro h
    unfold npSum
    rw [List.foldl_cons, h a (List.mem_cons_self _ _)]
    rw [show FVal.add (FVal.val 0) (FVal.val 0) = FVal.val 0 from by
      show FVal.val (0 + 0) = FVal.val 0
      rw [add_zero]]
    exact ih (fun w hw => h w (List.mem_cons_of_mem _ hw))

lemma overlapSum_degenerate (env : Env) (i1 i2 : NDImage) (sc : FVal)
    (h : env.std i1 = FVal.nan ∨ env.std i2 = FVal.nan) :
    overlapSum (cutImage env i1 sc) (cutImage env i2 sc) = FVal.val 0 := by
  unfold overlapSum
  refine npSum_zero _ (okProducts_zero _ _ ?_)
  cases h with
  | inl h => exact Or.inl (cut_entry_zero_or_nan env i1 sc h)
  | inr h => exact Or.inr (cut_entry_zero_or_nan env i2 sc h)

lemma nondeg_no_nan (env : Env) (i1 i2 : NDImage) (sc : FVal)
    (hstd1 : FVal.nan ∈ i1.data → env.std i1 = FVal.nan)
    (hstd2 : FVal.nan ∈ i2.data → env.std i2 = FVal.nan)
    (hnd : (overlapSum (cutImage env i1 sc) (cutImage env i2 sc)).feq
      (FVal.val 0) = false) :
    FVal.nan ∉ i1.data ∧ FVal.nan ∉ i2.data := by
  constructor <;> intro hmem
  · rw [overlapSum_degenerate env i1 i2 sc (Or.inl (hstd1 hmem))] at hnd
    simp [FVal.feq] at hnd
  · rw [overlapSum_degenerate env i1 i2 sc (Or.inr (hstd2 hmem))] at hnd
    simp [FVal.feq] at hnd

/-- C9: when a truthy sigma cut is applied and is not degenerate — under
the numpy behaviour of the standard-deviation collaborator, which returns
NaN for any NaN-containing array (a NaN anywhere would zero every finite
pixel of that image's cut, force an exactly-zero overlap sum, and take the
degenerate fallback instead) — the returned images are the cut images,
and each pixel of each returned image equals either the corresponding
projected pixel value or zero: pixels strictly greater than
`sigma_cut * that image's own standard deviation` keep their value, and
all other pixels (including those exactly equal to the threshold) are
zeroed; each image is thresholded against its own standard deviation,
independently of the other. -/
theorem C9_sigma_cut_pixels (env : Env) (f1 f2 : FitsFile)
    (header : Option Header) (sc : FVal) (rh : Bool) (kw : KwArgs)
    (hdr : Header) (i1 i2 : NDImage) (tr1 tr2 : List Event)
    (hstd1 : FVal.nan ∈ i1.data → env.std i1 = FVal.nan)
    (hstd2 : FVal.nan ∈ i2.data → env.std i2 = FVal.nan)
    (h1 : resolve1 env f1 header kw = (Except.ok (hdr, some i1), tr1))
    (h2 : project_to_header env f2 hdr true true kw =
      (Except.ok (some i2), tr2))
    (hsh : i1.shape = i2.shape)
    (ht : sc.truthy = true)
    (hnd : (overlapSum (cutImage env i1 sc) (cutImage env i2 sc)).feq
      (FVal.val 0) = false) :
    match_fits env f1 f2 header sc rh kw =
      (Except.ok (mkReturns (cutImage env i1 sc) (cutImage env i2 sc) hdr
        rh), tr1 ++ tr2) ∧
    (∀ i : ℕ, ∀ v, i1.data[i]? = some v →
      (cutImage env i1 sc).data[i]? =
        some (if v.gt ((env.std i1).mul sc) = true then v
          else FVal.val 0)) ∧
    (∀ i : ℕ, ∀ v, i2.data[i]? = some v →
      (cutImage env i2 sc).data[i]? =
        some (if v.gt ((env.std i2).mul sc) = true then v
          else FVal.val 0)) := by
  obtain ⟨hn1, hn2⟩ := nondeg_no_nan env i1 i2 sc hstd1 hstd2 hnd
  refine ⟨?_, ?_, ?_⟩
  · rw [match_fits_ok_char env f1 f2 header sc rh kw hdr i1 i2 tr1 tr2 h1
      h2 hsh, if_pos ht, if_neg (by rw [hnd]; exact Bool.false_ne_true)]
  · intro i v hv
    have hvne : v ≠ FVal.nan := fun hveq => hn1 (hveq ▸ List.getElem?_mem hv)
    simp only [cutImage, NDImage.emap]
    rw [List.getElem?_map, hv]
    simp only [Option.map_some']
    rw [cut_pixel]
    congr 1
    by_cases hg : v.gt ((env.std i1).mul sc) = true
    · rw [if_pos hg, if_pos hg]
    · rw [if_neg hg, if_neg hg, if_neg hvne]
  · intro i v hv
    have hvne : v ≠ FVal.nan := fun hveq => hn2 (hveq ▸ List.getElem?_mem hv)
    simp only [cutImage, NDImage.emap]
    rw [List.getElem?_map, hv]
    simp only [Option.map_some']
    rw [cut_pixel]
    congr 1
    by_cases hg : v.gt ((env.std i2).mul sc) = true
    · rw [if_pos hg, if_pos hg]
    · rw [if_neg hg, if_neg hg, if_neg hvne]

/-- C9 witness: on a concrete non-degenerate cut (std of `[0, 2]` is 1,
both images NaN-free), the theorem yields the cut images. -/
theorem C9_witness :
    match_fits envSingle "a.fits" "b.fits" none (FVal.val 1) false [] =
      (Except.ok (mkReturns (cutImage envSingle img01.squeeze (FVal.val 1))
        (cutImage envSingle img01 (FVal.val 1)) hdr0 false),
       [] ++ [Event.projectCall "b.fits" hdr0,
        Event.callHcongrid img01.squeeze hdr0 hdr0 []]) :=
  (C9_sigma_cut_pixels envSingle "a.fits" "b.fits" none (FVal.val 1) false
    [] hdr0 img01.squeeze img01 []
    [Event.projectCall "b.fits" hdr0,
      Event.callHcongrid img01.squeeze hdr0 hdr0 []]
    (fun h => absurd h (by decide)) (fun h => absurd h (by decide))
    rfl rfl rfl rfl
    (by norm_num [overlapSum, npSum, npMulList, npSelect, okMask, cutImage,
      NDImage.emap, NDImage.squeeze, envSingle, mkEnv, img01,
      FVal.mul, FVal.add, FVal.gt, FVal.feq, boolToF])).1
